import Mathlib

/-!
Shallow embedding of the two programs of the SphinxTrainingHelper repository:
`pa_record.py` (class `RecordingThread` and its argument parsing) and
`make_transcript_files.py` (the `generate_files` function and the `directory`
argument type).  Definitions are translated from the Python source; theorems
settle the specification claims about them.
-/

namespace PaRecord

/-- The PortAudio sample-format constants imported at the top of
`pa_record.py` (`paFloat32 .. paCustomFormat`). -/
inductive PaFormat
  | paFloat32
  | paInt32
  | paInt24
  | paInt16
  | paInt8
  | paUInt8
  | paCustomFormat
deriving DecidableEq

/-- The `formats` dictionary of valid PortAudio sample formats built in
`RecordingThread.__init__`. -/
def formats : List (String × PaFormat) :=
  [("paFloat32", PaFormat.paFloat32),
   ("paInt32", PaFormat.paInt32),
   ("paInt24", PaFormat.paInt24),
   ("paInt16", PaFormat.paInt16),
   ("paInt8", PaFormat.paInt8),
   ("paUInt8", PaFormat.paUInt8),
   ("paCustomFormat", PaFormat.paCustomFormat)]

/-- `pa_sample_format(s)`: looks the name up in `formats`; `none` models the
`ValueError` that makes argparse print a usage message and exit. -/
def pa_sample_format (s : String) : Option PaFormat :=
  formats.lookup s

/-- The parsed argument record of `pa_record.py` (`self.args`). -/
structure Args where
  output : String
  rate : Int
  pa_format : PaFormat
  device : Int
  channels : Int
  chunk : Int
deriving DecidableEq

/-- The argparse defaults: `--output output.wav --rate 8000 --format paUInt8
--device -1 --channels 1 --chunk 1024`. -/
def defaultArgs : Args :=
  { output := "output.wav", rate := 8000, pa_format := PaFormat.paUInt8,
    device := -1, channels := 1, chunk := 1024 }

/-- The option strings `RecordingThread.__init__` registers on its parser. -/
inductive OptKey
  | output
  | rate
  | format
  | device
  | channels
  | chunk
deriving DecidableEq

/-- Maps a command-line token to the option it names, if any. -/
def flagKey (s : String) : Option OptKey :=
  if s = "--output" then some OptKey.output
  else if s = "--rate" then some OptKey.rate
  else if s = "--format" then some OptKey.format
  else if s = "--device" then some OptKey.device
  else if s = "--channels" then some OptKey.channels
  else if s = "--chunk" then some OptKey.chunk
  else none

/-- Decimal digit run, accumulated left to right; `none` on any non-digit or
on an empty run. -/
def parseNatChars (l : List Char) : Option Nat :=
  match l with
  | [] => none
  | _ =>
    l.foldl
      (fun acc c =>
        match acc with
        | some n => if c.isDigit then some (n * 10 + (c.toNat - 48)) else none
        | none => none)
      (some 0)

/-- Python's `int(v)` as used by argparse's `type=int` on a plain decimal
numeral, with an optional leading minus sign; any other token is a
`ValueError`, i.e. an argparse usage error. -/
def parseInt (s : String) : Option Int :=
  match s.data with
  | '-' :: rest => (parseNatChars rest).map fun n => -(n : Int)
  | l => (parseNatChars l).map fun n => (n : Int)

/-- Applies one parsed option to the accumulated argument record.  `--rate`,
`--device`, `--channels` and `--chunk` use `type=int` (any integer is
accepted; an unparsable token is an argparse error, modelled by `none`);
`--format` goes through `pa_sample_format`; `--output` is a plain string. -/
def applyOpt (k : OptKey) (v : String) (acc : Args) : Option Args :=
  match k with
  | OptKey.output => some { acc with output := v }
  | OptKey.rate =>
    match parseInt v with
    | some n => some { acc with rate := n }
    | none => none
  | OptKey.format =>
    match pa_sample_format v with
    | some f => some { acc with pa_format := f }
    | none => none
  | OptKey.device =>
    match parseInt v with
    | some n => some { acc with device := n }
    | none => none
  | OptKey.channels =>
    match parseInt v with
    | some n => some { acc with channels := n }
    | none => none
  | OptKey.chunk =>
    match parseInt v with
    | some n => some { acc with chunk := n }
    | none => none

/-- Left-to-right processing of the token list by the parser built in
`RecordingThread.__init__`: each recognised flag consumes the following token
as its value; an unknown token, a flag without a value, or an invalid value
is an argparse error (`none`, i.e. usage message and process exit, before
any device or file resource is touched). -/
def parse_args_from : List String → Args → Option Args
  | [], acc => some acc
  | flag :: rest, acc =>
    match flagKey flag, rest with
    | some k, v :: rest2 =>
      match applyOpt k v acc with
      | some acc2 => parse_args_from rest2 acc2
      | none => none
    | _, _ => none

/-- `parser.parse_args(args)` as called from `RecordingThread.__init__`. -/
def parse_args (toks : List String) : Option Args :=
  parse_args_from toks defaultArgs

/-- `run` maps a parsed device index to the value passed to PyAudio as
`input_device_index`: `if DEVICE_INDEX < 0: DEVICE_INDEX = None` (where
`None` selects the system default input device). -/
def effective_device (d : Int) : Option Int :=
  if d < 0 then none else some d

/-- Program counter of the worker thread inside `RecordingThread.run`:
`setFlag` is the statement `self._recording = True` (the stream and wave
file are already open at this point), `loopCheck` the `while self._recording`
test, `body` the statement `wf.writeframes(stream.read(CHUNK))` together with
the following `time.sleep(0.05)`, `finalize` the straight-line block
`stream.stop_stream(); stream.close(); wf.close(); p.terminate()`, `done` the
end of `run`, and `crashed` an exception propagating out of `run` (the
`Thread` machinery swallows it after printing a traceback). -/
inductive PC
  | setFlag
  | loopCheck
  | body
  | finalize
  | done
  | crashed
deriving DecidableEq

/-- Shared state of the two threads of `pa_record.py`: the worker's program
counter, the `self._recording` flag, how many chunks have been read so far,
the frames written to the wave file, whether stream/file were closed, and how
many times the finalization block has run. -/
structure Config where
  pc : PC
  recording : Bool
  readIdx : Nat
  file : List Nat
  fileClosed : Bool
  streamClosed : Bool
  finalizeCount : Nat
deriving DecidableEq

/-- State right after `RecordingThread.__init__` set `self._recording = False`
and `run` opened the stream and wave file, about to execute
`self._recording = True`. -/
def initConfig : Config :=
  { pc := PC.setFlag, recording := false, readIdx := 0, file := [],
    fileClosed := false, streamClosed := false, finalizeCount := 0 }

/-- Device oracle: the result of the i-th `stream.read(CHUNK)` call — `some`
frames on success, `none` when the read raises (e.g. device disconnected). -/
def Dev : Type :=
  Nat → Option (List Nat)

/-- One step of the worker thread of `RecordingThread.run`.  The loop flag is
consulted only at `loopCheck`; the read/write body never looks at it.  A
failing read raises, which skips the finalization block entirely. -/
def workerStep (dev : Dev) (c : Config) : Config :=
  match c.pc with
  | PC.setFlag => { c with recording := true, pc := PC.loopCheck }
  | PC.loopCheck =>
    if c.recording then { c with pc := PC.body } else { c with pc := PC.finalize }
  | PC.body =>
    match dev c.readIdx with
    | some ch => { c with file := c.file ++ ch, readIdx := c.readIdx + 1, pc := PC.loopCheck }
    | none => { c with pc := PC.crashed }
  | PC.finalize =>
    { c with streamClosed := true, fileClosed := true,
             finalizeCount := c.finalizeCount + 1, pc := PC.done }
  | PC.done => c
  | PC.crashed => c

/-- `RecordingThread.stop_recording`: `self._recording = False`.  A single
atomic action of the controlling thread; it always completes immediately. -/
def stop_recording (c : Config) : Config :=
  { c with recording := false }

/-- An interleaving action: one worker step or one `stop_recording` call. -/
inductive Act
  | work
  | stop
deriving DecidableEq

/-- Runs a schedule of interleaved worker steps and `stop_recording` calls. -/
def exec (dev : Dev) : List Act → Config → Config
  | [], c => c
  | Act.work :: rest, c => exec dev rest (workerStep dev c)
  | Act.stop :: rest, c => exec dev rest (stop_recording c)

/-- Concatenation, in pull order, of the first `n` chunks the device
delivers. -/
def pulled (dev : Dev) : Nat → List Nat
  | 0 => []
  | n + 1 => pulled dev n ++ (dev n).getD []

/-- Finalization invariant: the finalize block has run exactly once when the
worker is `done` and never otherwise, and it is the only code that closes the
stream and the wave file. -/
def FinInv (c : Config) : Prop :=
  c.finalizeCount = (if c.pc = PC.done then 1 else 0)
  ∧ (c.fileClosed = true ↔ c.pc = PC.done)
  ∧ (c.streamClosed = true ↔ c.pc = PC.done)

end PaRecord

namespace MakeTranscript

/-- Python's `str.strip()` on the character list: drop whitespace from both
ends. -/
def stripChars (l : List Char) : List Char :=
  ((l.dropWhile Char.isWhitespace).reverse.dropWhile Char.isWhitespace).reverse

/-- Python's `str.strip()`. -/
def strip (s : String) : String :=
  String.mk (stripChars s.data)

/-- Line preprocessing in `generate_files`:
`line = line.strip().split("#")[0]` — trim surrounding whitespace, then
truncate at the first `#` (the first field of `split("#")` is exactly the
prefix before the first `#`, or the whole string when there is none). -/
def process_line (line : String) : String :=
  String.mk ((stripChars line.data).takeWhile fun c => c != '#')

/-- The `%04d` conversion: the decimal digits of `n`, zero-padded on the left
to at least four characters. -/
def pad4 (n : Nat) : String :=
  String.mk (List.replicate (4 - (toString n).length) '0') ++ toString n

/-- `transcription_id = "%s_%04d" % (name, count)`. -/
def transcription_id (name : String) (count : Nat) : String :=
  name ++ "_" ++ pad4 count

/-- The transcription line `"<s> %s </s> (%s)" % (line.strip(), tid)` written
for one kept input line (already preprocessed by `process_line`). -/
def trans_line (name : String) (count : Nat) (line : String) : String :=
  "<s> " ++ strip line ++ " </s> (" ++ transcription_id name count ++ ")"

/-- The loop body of `generate_files` over the remaining input lines with the
current value of `count` (starting at 1): skip lines whose processed text is
empty, otherwise emit one transcription line and one fileids line and
increment `count`.  Returns (transcription lines, fileids lines). -/
def generate_go (name : String) : List String → Nat → List String × List String
  | [], _ => ([], [])
  | l :: rest, count =>
    let line := process_line l
    if line = "" then generate_go name rest count
    else
      let r := generate_go name rest (count + 1)
      (trans_line name count line :: r.1, transcription_id name count :: r.2)

/-- `generate_files`, as the pure line transformation it performs: from the
basename `name` and the input lines, the lines of `<name>.transcription` and
of `<name>.fileids`, in order. -/
def generate_files (name : String) (lines : List String) : List String × List String :=
  generate_go name lines 1

/-- Splits a character list at every occurrence of `sep` (the pieces do not
contain the separator). -/
def splitOnChar (sep : Char) : List Char → List (List Char)
  | [] => [[]]
  | c :: rest =>
    let r := splitOnChar sep rest
    if c = sep then [] :: r
    else (c :: r.headD []) :: r.tail

/-- `in_file.readlines()` followed by the per-line processing is insensitive
to the trailing newline of each line, so we model the split of the file text
into lines by splitting at every newline (a trailing empty piece processes
to the empty string and is skipped by `generate_files`). -/
def readlines (s : String) : List String :=
  (splitOnChar '\n' s.data).map String.mk

/-- Abstract file-system oracle for the `directory` argparse type:
`os.path.exists`, `os.path.isdir`, and whether `os.mkdir` succeeds. -/
structure FS where
  pathExists : String → Bool
  isDir : String → Bool
  mkdirOk : String → Bool

/-- Result of the `directory` pseudo-type function: either a validated
output directory (`none` = working directory) together with whether it was
freshly created, or the corresponding `exit(1)`. -/
inductive DirCheck
  | ok (d : Option String) (created : Bool)
  | errNotDir
  | errMkdir
deriving DecidableEq

/-- The `directory` pseudo-type function of `make_transcript_files.py`:
a falsy path is passed through; an existing non-directory path is an error;
a missing path is created with `os.mkdir` (an error if that fails);
otherwise the path is returned unchanged. -/
def directory (path : Option String) (fs : FS) : DirCheck :=
  match path with
  | none => DirCheck.ok none false
  | some p =>
    if p = "" then DirCheck.ok none false
    else if fs.pathExists p && !(fs.isDir p) then DirCheck.errNotDir
    else if !(fs.pathExists p) then
      (if fs.mkdirOk p then DirCheck.ok (some p) true else DirCheck.errMkdir)
    else DirCheck.ok (some p) false

/-- `os.path.join(d, f)` for a plain directory path and a relative name. -/
def joinPath (d f : String) : String :=
  d ++ "/" ++ f

/-- Outcome of the script's main flow: `exited` records an `exit(1)` with the
directories and output files created up to that point; `finished` records the
directories created, the two output files created (transcription first, then
fileids), and their contents. -/
inductive RunResult
  | exited (code : Nat) (createdDirs : List String) (createdFiles : List String)
  | finished (createdDirs : List String) (createdFiles : List String)
      (transcription : List String) (fileids : List String)
deriving DecidableEq

/-- The main flow of `make_transcript_files.py`: argparse evaluates the
`directory` type on `--out-dir` first (so its `exit(1)` happens before any
output file is created); then `generate_files` opens
`<name>.transcription` and `<name>.fileids` in the chosen directory (or the
working directory) and writes the generated lines. -/
def main_run (inName : String) (lines : List String) (outDirArg : Option String)
    (fs : FS) : RunResult :=
  match directory outDirArg fs with
  | DirCheck.errNotDir => RunResult.exited 1 [] []
  | DirCheck.errMkdir => RunResult.exited 1 [] []
  | DirCheck.ok d created =>
    let dirs := match d, created with
      | some p, true => [p]
      | _, _ => []
    let tname := inName ++ ".transcription"
    let fname := inName ++ ".fileids"
    let tpath := match d with
      | some p => joinPath p tname
      | none => tname
    let fpath := match d with
      | some p => joinPath p fname
      | none => fname
    let out := generate_files inName lines
    RunResult.finished dirs [tpath, fpath] out.1 out.2

end MakeTranscript

namespace PaRecord

theorem finInv_init : FinInv initConfig := by
  refine ⟨rfl, by simp [initConfig], by simp [initConfig]⟩

theorem finInv_step (dev : Dev) (c : Config) (h : FinInv c) : FinInv (workerStep dev c) := by
  obtain ⟨pc, rec, ri, fl, fc, sc, n⟩ := c
  obtain ⟨h1, h2, h3⟩ := h
  simp only [FinInv] at h1 h2 h3 ⊢
  cases pc
  · simp_all [workerStep]
  · cases rec <;> simp_all [workerStep]
  · cases hd : dev ri <;> simp_all [workerStep]
  · simp_all [workerStep]
  · simp_all [workerStep]
  · simp_all [workerStep]

theorem finInv_stop (c : Config) (h : FinInv c) : FinInv (stop_recording c) := h

theorem finInv_exec (dev : Dev) :
    ∀ (acts : List Act) (c : Config), FinInv c → FinInv (exec dev acts c)
  | [], _, h => h
  | Act.work :: rest, c, h => finInv_exec dev rest _ (finInv_step dev c h)
  | Act.stop :: rest, c, h => finInv_exec dev rest _ (finInv_stop c h)

theorem stop_iterate :
    ∀ (n : Nat) (c : Config), stop_recording^[n + 1] c = stop_recording c
  | 0, _ => rfl
  | n + 1, c => by
    rw [Function.iterate_succ_apply, stop_iterate n (stop_recording c)]
    rfl

theorem exec_dup_stop (dev : Dev) :
    ∀ (pre post : List Act) (c : Config),
      exec dev (pre ++ Act.stop :: Act.stop :: post) c
        = exec dev (pre ++ Act.stop :: post) c
  | [], _, _ => rfl
  | Act.work :: pre, post, c => exec_dup_stop dev pre post (workerStep dev c)
  | Act.stop :: pre, post, c => exec_dup_stop dev pre post (stop_recording c)

/-- C1: `stop_recording` (requestStop) is idempotent: repeating it any
`n ≥ 1` times equals doing it once, inserting a duplicate `stop` anywhere in
a schedule leaves the run unchanged, and in every interleaving started from
the initial session state the finalization block runs at most once — exactly
once when the worker reaches the end of `run`.  In the model every
`stop_recording` action completes in a single step, so it never blocks. -/
theorem C1_stop_recording_idempotent :
    (∀ (c : Config) (n : Nat), 1 ≤ n → stop_recording^[n] c = stop_recording c)
    ∧ (∀ (dev : Dev) (pre post : List Act) (c : Config),
        exec dev (pre ++ Act.stop :: Act.stop :: post) c
          = exec dev (pre ++ Act.stop :: post) c)
    ∧ (∀ (dev : Dev) (acts : List Act), (exec dev acts initConfig).finalizeCount ≤ 1)
    ∧ (∀ (dev : Dev) (acts : List Act), (exec dev acts initConfig).pc = PC.done →
        (exec dev acts initConfig).finalizeCount = 1) := by
  refine ⟨?_, fun dev pre post c => exec_dup_stop dev pre post c, ?_, ?_⟩
  · intro c n hn
    obtain ⟨m, rfl⟩ : ∃ m, n = m + 1 := ⟨n - 1, by omega⟩
    exact stop_iterate m c
  · intro dev acts
    have h := (finInv_exec dev acts initConfig finInv_init).1
    rw [h]
    split <;> omega
  · intro dev acts hdone
    have h := (finInv_exec dev acts initConfig finInv_init).1
    rw [h, if_pos hdone]

/-- Witness for C1 at concrete inputs. -/
theorem C1_stop_recording_idempotent_witness :
    stop_recording^[3] initConfig = stop_recording initConfig
    ∧ (exec (fun _ => some [7]) [Act.work, Act.stop, Act.work, Act.work]
        initConfig).finalizeCount = 1 :=
  ⟨C1_stop_recording_idempotent.1 initConfig 3 (by omega),
   C1_stop_recording_idempotent.2.2.2 (fun _ => some [7])
     [Act.work, Act.stop, Act.work, Act.work] (by decide)⟩

theorem exec_file (dev : Dev) :
    ∀ (acts : List Act) (c : Config), c.file = pulled dev c.readIdx →
      (exec dev acts c).file = pulled dev (exec dev acts c).readIdx
  | [], _, h => h
  | Act.stop :: rest, c, h => exec_file dev rest (stop_recording c) h
  | Act.work :: rest, c, h => by
    apply exec_file dev rest
    obtain ⟨pc, rec, ri, fl, fc, sc, n⟩ := c
    cases pc <;> try exact h
    · cases rec <;> exact h
    · cases hd : dev ri
      · simpa [workerStep, hd] using h
      · simp only [workerStep, hd]
        simp only at h
        simp [pulled, hd, h]

theorem pulled_length (dev : Dev) (chunkSize : Nat)
    (hdev : ∀ i, ∃ ch, dev i = some ch ∧ ch.length = chunkSize) :
    ∀ n, (pulled dev n).length = n * chunkSize
  | 0 => by simp [pulled]
  | n + 1 => by
    obtain ⟨ch, hch, hlen⟩ := hdev n
    simp [pulled, hch, hlen, pulled_length dev chunkSize hdev n, Nat.succ_mul]

/-- C2: when every device read delivers a whole chunk of `chunkSize` frames
(PortAudio's contract for `stream.read(CHUNK)`), then under every
interleaving of worker steps and `stop_recording` calls the output file holds
exactly `readIdx` whole chunks — its length is a multiple of the chunk size,
never a partial chunk — because the loop flag is consulted only between
iterations: a read/write body step appends its whole chunk regardless of the
current value of the stop flag. -/
theorem C2_stop_observed_between_chunks (dev : Dev) (chunkSize : Nat)
    (hdev : ∀ i, ∃ ch, dev i = some ch ∧ ch.length = chunkSize) :
    (∀ acts : List Act,
      (exec dev acts initConfig).file.length
        = (exec dev acts initConfig).readIdx * chunkSize)
    ∧ (∀ (c : Config) (b : Bool) (ch : List Nat), c.pc = PC.body →
        dev c.readIdx = some ch →
        (workerStep dev { c with recording := b }).file = c.file ++ ch) := by
  constructor
  · intro acts
    rw [exec_file dev acts initConfig rfl]
    exact pulled_length dev chunkSize hdev _
  · intro c b ch hpc hread
    obtain ⟨pc, rec, ri, fl, fc, sc, n⟩ := c
    simp only at hpc hread
    subst hpc
    simp [workerStep, hread]

/-- Witness for C2 at concrete inputs. -/
theorem C2_stop_observed_between_chunks_witness :
    (exec (fun _ => some [3, 4]) [Act.work, Act.work, Act.stop, Act.work]
        initConfig).file.length
      = (exec (fun _ => some [3, 4]) [Act.work, Act.work, Act.stop, Act.work]
          initConfig).readIdx * 2 :=
  (C2_stop_observed_between_chunks (fun _ => some [3, 4]) 2
    (fun _ => ⟨[3, 4], rfl, rfl⟩)).1 [Act.work, Act.work, Act.stop, Act.work]

/-- C5: under every interleaving, the bytes in the output file are exactly
the concatenation, in pull order, of the chunks read so far: chunk `N`'s
bytes precede chunk `N+1`'s, and no chunk is reordered, duplicated, or
dropped between two written chunks. -/
theorem C5_chunks_written_in_pull_order (dev : Dev) (acts : List Act) :
    (exec dev acts initConfig).file
      = pulled dev (exec dev acts initConfig).readIdx :=
  exec_file dev acts initConfig rfl

end PaRecord

namespace PaRecord

/-- C3 counterexample: with a device whose very first read raises, the
schedule "set flag, loop test, read" leaves the worker crashed with the
output file and the stream still open and the finalization block never
executed — `run` has no exception handler, so a failing read skips
finalization instead of performing it, and no `DeviceReadFailure` result is
reported. -/
theorem C3_read_failure_counterexample :
    (exec (fun _ => none) [Act.work, Act.work, Act.work] initConfig).pc = PC.crashed
    ∧ (exec (fun _ => none) [Act.work, Act.work, Act.work] initConfig).fileClosed = false
    ∧ (exec (fun _ => none) [Act.work, Act.work, Act.work] initConfig).streamClosed = false
    ∧ (exec (fun _ => none) [Act.work, Act.work, Act.work] initConfig).finalizeCount = 0 := by
  decide

theorem crashed_stuck (dev : Dev) :
    ∀ (n : Nat) (c : Config), c.pc = PC.crashed →
      exec dev (List.replicate n Act.work) c = c
  | 0, _, _ => rfl
  | n + 1, c, h => by
    have hstep : workerStep dev c = c := by
      obtain ⟨pc, rec, ri, fl, fc, sc, m⟩ := c
      simp only at h
      subst h
      rfl
    rw [List.replicate_succ]
    show exec dev (List.replicate n Act.work) (workerStep dev c) = c
    rw [hstep]
    exact crashed_stuck dev n c h

/-- C3 amended: if a device read fails mid-loop, the exception propagates out
of `run`: the worker moves to `crashed` with the file contents, the
open/closed status of the file and stream, and the finalization count all
unchanged, and it stays there — finalization is never performed on this path
and no failure result is observable through `Thread.join`. -/
theorem C3_read_failure_skips_finalization (dev : Dev) (c : Config)
    (hpc : c.pc = PC.body) (hread : dev c.readIdx = none) :
    workerStep dev c = { c with pc := PC.crashed }
    ∧ (∀ n : Nat,
        exec dev (List.replicate n Act.work) { c with pc := PC.crashed }
          = { c with pc := PC.crashed }) := by
  constructor
  · obtain ⟨pc, rec, ri, fl, fc, sc, m⟩ := c
    simp only at hpc hread
    subst hpc
    simp [workerStep, hread]
  · intro n
    exact crashed_stuck dev n { c with pc := PC.crashed } rfl

/-- Witness for the amended C3 at a concrete input. -/
theorem C3_read_failure_skips_finalization_witness :
    workerStep (fun _ => none) { initConfig with pc := PC.body }
      = { { initConfig with pc := PC.body } with pc := PC.crashed } :=
  (C3_read_failure_skips_finalization (fun _ => none)
    { initConfig with pc := PC.body } rfl rfl).1

theorem loop_invariant (dev : Dev) (hdev : ∀ i, dev i ≠ none) :
    ∀ (n : Nat) (c : Config), c.recording = true →
      (c.pc = PC.loopCheck ∨ c.pc = PC.body) →
      (exec dev (List.replicate n Act.work) c).recording = true
      ∧ ((exec dev (List.replicate n Act.work) c).pc = PC.loopCheck
          ∨ (exec dev (List.replicate n Act.work) c).pc = PC.body)
      ∧ (exec dev (List.replicate n Act.work) c).finalizeCount = c.finalizeCount
  | 0, c, hrec, hpc => ⟨hrec, hpc, rfl⟩
  | n + 1, c, hrec, hpc => by
    rw [List.replicate_succ]
    show (exec dev (List.replicate n Act.work) (workerStep dev c)).recording = true
      ∧ _ ∧ (exec dev (List.replicate n Act.work) (workerStep dev c)).finalizeCount
          = c.finalizeCount
    obtain ⟨pc, rec, ri, fl, fc, sc, m⟩ := c
    simp only at hrec hpc
    subst hrec
    have hnext : ∀ c2 : Config, workerStep dev ⟨pc, true, ri, fl, fc, sc, m⟩ = c2 →
        c2.recording = true ∧ (c2.pc = PC.loopCheck ∨ c2.pc = PC.body)
        ∧ c2.finalizeCount = m := by
      intro c2 hc2
      rcases hpc with h | h <;> subst h
      · simp [workerStep] at hc2
        subst hc2
        exact ⟨rfl, Or.inr rfl, rfl⟩
      · cases hd : dev ri with
        | none => exact absurd hd (hdev ri)
        | some ch =>
          simp [workerStep, hd] at hc2
          subst hc2
          exact ⟨rfl, Or.inl rfl, rfl⟩
    obtain ⟨h1, h2, h3⟩ := hnext _ rfl
    obtain ⟨g1, g2, g3⟩ := loop_invariant dev hdev n _ h1 h2
    exact ⟨g1, g2, by rw [g3, h3]⟩

/-- C9: `run` sets `self._recording = True` unconditionally after opening the
stream and output file, so a `stop_recording` call that executes before that
assignment is overwritten: immediately afterwards the flag is `True` again,
and (with every read succeeding) the capture loop then runs forever — the
worker never reaches the end of `run` and never finalizes.  The early stop
request is lost. -/
theorem C9_stop_before_flag_assignment_is_lost (dev : Dev)
    (hdev : ∀ i, dev i ≠ none) :
    (exec dev [Act.stop, Act.work] initConfig).recording = true
    ∧ (∀ n : Nat,
        (exec dev (Act.stop :: List.replicate n Act.work) initConfig).pc ≠ PC.done
        ∧ (exec dev (Act.stop :: List.replicate n Act.work) initConfig).finalizeCount
            = 0) := by
  constructor
  · rfl
  · intro n
    show (exec dev (List.replicate n Act.work) (stop_recording initConfig)).pc ≠ PC.done
      ∧ (exec dev (List.replicate n Act.work) (stop_recording initConfig)).finalizeCount = 0
    have hinit : stop_recording initConfig = initConfig := rfl
    rw [hinit]
    cases n with
    | zero =>
      exact ⟨fun h => PC.noConfusion h, rfl⟩
    | succ m =>
      rw [List.replicate_succ]
      show (exec dev (List.replicate m Act.work) (workerStep dev initConfig)).pc ≠ PC.done ∧ _
      have hstep : workerStep dev initConfig
          = { initConfig with recording := true, pc := PC.loopCheck } := rfl
      rw [hstep]
      obtain ⟨g1, g2, g3⟩ := loop_invariant dev hdev m
        { initConfig with recording := true, pc := PC.loopCheck } rfl (Or.inl rfl)
      refine ⟨?_, g3⟩
      rcases g2 with h | h <;> rw [h] <;> exact fun hc => PC.noConfusion hc

/-- Witness for C9 at a concrete device oracle and schedule length. -/
theorem C9_stop_before_flag_assignment_is_lost_witness :
    (exec (fun _ => some [0]) [Act.stop, Act.work] initConfig).recording = true
    ∧ (exec (fun _ => some [0]) (Act.stop :: List.replicate 5 Act.work)
        initConfig).pc ≠ PC.done :=
  ⟨(C9_stop_before_flag_assignment_is_lost (fun _ => some [0])
      (fun _ h => Option.noConfusion h)).1,
   ((C9_stop_before_flag_assignment_is_lost (fun _ => some [0])
      (fun _ h => Option.noConfusion h)).2 5).1⟩

/-- C10: a parsed device index below zero (including the default `-1`) makes
`run` pass `None` (the system default input device) to PyAudio, a
non-negative index is passed through unchanged, and the parser accepts every
integer for `--device` — a negative index is never rejected as invalid. -/
theorem C10_negative_device_selects_default (d : Int) (s : String)
    (hs : parseInt s = some d) :
    (d < 0 → effective_device d = none)
    ∧ (0 ≤ d → effective_device d = some d)
    ∧ parse_args ["--device", s] = some { defaultArgs with device := d } := by
  refine ⟨fun h => if_pos h, fun h => if_neg (by omega), ?_⟩
  have h1 : flagKey "--device" = some OptKey.device := by decide
  simp [parse_args, parse_args_from, h1, applyOpt, hs]

/-- Witness for C10 at the concrete token `-5`. -/
theorem C10_negative_device_selects_default_witness :
    effective_device (-5) = none
    ∧ parse_args ["--device", "-5"] = some { defaultArgs with device := -5 } :=
  ⟨(C10_negative_device_selects_default (-5) "-5" (by decide)).1 (by decide),
   (C10_negative_device_selects_default (-5) "-5" (by decide)).2.2⟩

/-- C4 counterexample: a parameter set with sample rate 0, channel count 0,
chunk size 0 and a device index that need not exist is accepted by the
configuration step without any error — the claimed `InvalidConfiguration`
rejection does not happen. -/
theorem C4_nonpositive_params_accepted_counterexample :
    parse_args ["--rate", "0", "--channels", "0", "--chunk", "0", "--device", "42"]
      = some { defaultArgs with rate := 0, channels := 0, chunk := 0, device := 42 } := by
  decide

/-- C4 amended: configuration validates only the sample-format name — an
unrecognised `--format` value fails (usage error and process exit, before
any device or file resource is opened), while `--rate`, `--channels` and
`--chunk` accept any integers, with no positivity check and no device
existence check. -/
theorem C4_only_format_validated (s vr vc vk : String) (r c k : Int)
    (hs : pa_sample_format s = none) (hr : parseInt vr = some r)
    (hc : parseInt vc = some c) (hk : parseInt vk = some k) :
    parse_args ["--format", s] = none
    ∧ parse_args ["--rate", vr, "--channels", vc, "--chunk", vk]
        = some { defaultArgs with rate := r, channels := c, chunk := k } := by
  constructor
  · have h1 : flagKey "--format" = some OptKey.format := by decide
    simp [parse_args, parse_args_from, h1, applyOpt, hs]
  · have h1 : flagKey "--rate" = some OptKey.rate := by decide
    have h2 : flagKey "--channels" = some OptKey.channels := by decide
    have h3 : flagKey "--chunk" = some OptKey.chunk := by decide
    simp [parse_args, parse_args_from, h1, h2, h3, applyOpt, hr, hc, hk]

/-- Witness for the amended C4 at concrete tokens. -/
theorem C4_only_format_validated_witness :
    parse_args ["--format", "paBogus"] = none
    ∧ parse_args ["--rate", "0", "--channels", "-2", "--chunk", "0"]
        = some { defaultArgs with rate := 0, channels := -2, chunk := 0 } :=
  C4_only_format_validated "paBogus" "0" "-2" "0" 0 (-2) 0
    (by decide) (by decide) (by decide) (by decide)

end PaRecord

namespace MakeTranscript

theorem mapIdx_shift (f : Nat → String → String) (L : List String) (c : Nat) :
    List.mapIdx (fun i x => f (c + 1 + i) x) L
      = List.mapIdx (fun i x => f (c + (i + 1)) x) L := by
  have h : (fun i x => f (c + 1 + i) x) = (fun i x => f (c + (i + 1)) x) := by
    funext i x
    rw [Nat.add_right_comm, Nat.add_assoc]
  rw [h]

theorem generate_go_eq (name : String) :
    ∀ (lines : List String) (c : Nat),
      generate_go name lines c
        = ((lines.filter fun l => process_line l != "").mapIdx
            (fun i l => trans_line name (c + i) (process_line l)),
           (lines.filter fun l => process_line l != "").mapIdx
            (fun i _ => transcription_id name (c + i)))
  | [], c => by simp [generate_go]
  | l :: rest, c => by
    by_cases h : process_line l = ""
    · simp only [generate_go, h, if_pos rfl, List.filter_cons, bne_self_eq_false,
        Bool.false_eq_true, if_false, generate_go_eq name rest c]
      simp [h]
    · have hne : (process_line l != "") = true := by simp [h]
      simp only [generate_go, if_neg h, List.filter_cons, hne, if_true,
        generate_go_eq name rest (c + 1), List.mapIdx_cons, Nat.add_zero]
      rw [mapIdx_shift (fun n x => trans_line name n (process_line x)),
        mapIdx_shift (fun n _ => transcription_id name n)]

theorem mapIdx_one_add (f : Nat → String → String) (L : List String) :
    List.mapIdx (fun i x => f (1 + i) x) L
      = List.mapIdx (fun i x => f (i + 1) x) L := by
  have h : (fun i x => f (1 + i) x) = (fun i x => f (i + 1) x) := by
    funext i x
    rw [Nat.add_comm]
  rw [h]

/-- C6: for every input, the i-th (1-indexed) non-ignored line with processed
text `T` yields the transcription line `<s> T </s> (<name>_NNNN)` and the
fileids line `<name>_NNNN`, with `NNNN` the 1-based count zero-padded to at
least four digits, in input order; and the sample input
`"hello world\n# comment\n\nfoo # bar\n"` with basename `demo` yields
exactly the two expected lines in each file. -/
theorem C6_transcription_and_fileids_lines (name : String) (lines : List String) :
    (generate_files name lines).1
      = ((lines.filter fun l => process_line l != "").mapIdx
          fun i l => "<s> " ++ strip (process_line l) ++ " </s> ("
            ++ name ++ "_" ++ pad4 (i + 1) ++ ")")
    ∧ (generate_files name lines).2
      = ((lines.filter fun l => process_line l != "").mapIdx
          fun i _ => name ++ "_" ++ pad4 (i + 1))
    ∧ generate_files "demo" (readlines "hello world\n# comment\n\nfoo # bar\n")
        = (["<s> hello world </s> (demo_0001)", "<s> foo </s> (demo_0002)"],
           ["demo_0001", "demo_0002"]) := by
  refine ⟨?_, ?_, by decide⟩
  · rw [generate_files, generate_go_eq name lines 1]
    rw [mapIdx_one_add (fun n x => trans_line name n (process_line x))]
    simp [trans_line, transcription_id, String.append_assoc]
  · rw [generate_files, generate_go_eq name lines 1]
    rw [mapIdx_one_add (fun n _ => transcription_id name n)]
    simp [transcription_id, String.append_assoc]

/-- C7: a line contributes to the outputs exactly when its stripped,
`#`-truncated text is nonempty: removing all ignored lines changes nothing,
each kept line produces exactly one output line in each file, and the
outputs are both empty exactly when every line of the input is blank or a
comment (which is not an error — the two files are produced, empty). -/
theorem C7_ignored_lines (name : String) (lines : List String) :
    generate_files name lines
      = generate_files name (lines.filter fun l => process_line l != "")
    ∧ (generate_files name lines).2.length
        = lines.countP (fun l => process_line l != "")
    ∧ (generate_files name lines = ([], []) ↔ ∀ l ∈ lines, process_line l = "") := by
  refine ⟨?_, ?_, ?_⟩
  · rw [generate_files, generate_files, generate_go_eq name lines 1,
      generate_go_eq name (lines.filter fun l => process_line l != "") 1]
    simp [List.filter_filter]
  · rw [generate_files, generate_go_eq name lines 1]
    simp [List.countP_eq_length_filter]
  · rw [generate_files, generate_go_eq name lines 1]
    constructor
    · intro h
      have h2 := congrArg Prod.snd h
      simp only [List.mapIdx_eq_nil_iff] at h2
      intro l hl
      by_contra hne
      have : l ∈ lines.filter fun x => process_line x != "" := by
        simp [List.mem_filter, hl, hne]
      rw [h2] at this
      simp at this
    · intro h
      have hfil : (lines.filter fun l => process_line l != "") = [] := by
        rw [List.filter_eq_nil_iff]
        intro a ha
        simp [h a ha]
      rw [hfil]
      rfl

end MakeTranscript

namespace MakeTranscript

/-- C8: the `directory` check runs while the arguments are parsed, before any
output file is opened.  For a nonempty `--out-dir` path: if it exists and is
not a directory the program exits with status 1 having created nothing; if it
does not exist it is created and both output files are written inside it; if
it exists as a directory both output files are written inside it; with no
`--out-dir`, both files go to the working directory. -/
theorem C8_output_directory_handling (p inName : String) (lines : List String)
    (fs : FS) (hp : p ≠ "") :
    (fs.pathExists p = true → fs.isDir p = false →
      main_run inName lines (some p) fs = RunResult.exited 1 [] [])
    ∧ (fs.pathExists p = false → fs.mkdirOk p = true →
      main_run inName lines (some p) fs
        = RunResult.finished [p]
            [joinPath p (inName ++ ".transcription"), joinPath p (inName ++ ".fileids")]
            (generate_files inName lines).1 (generate_files inName lines).2)
    ∧ (fs.pathExists p = true → fs.isDir p = true →
      main_run inName lines (some p) fs
        = RunResult.finished []
            [joinPath p (inName ++ ".transcription"), joinPath p (inName ++ ".fileids")]
            (generate_files inName lines).1 (generate_files inName lines).2)
    ∧ main_run inName lines none fs
        = RunResult.finished [] [inName ++ ".transcription", inName ++ ".fileids"]
            (generate_files inName lines).1 (generate_files inName lines).2 := by
  refine ⟨?_, ?_, ?_, ?_⟩
  · intro hex hdir
    simp [main_run, directory, hp, hex, hdir]
  · intro hex hmk
    simp [main_run, directory, hp, hex, hmk]
  · intro hex hdir
    simp [main_run, directory, hp, hex, hdir]
  · simp [main_run, directory]

/-- Witness for C8 at concrete paths and file-system oracles. -/
theorem C8_output_directory_handling_witness :
    main_run "demo" ["a b"] (some "out")
        { pathExists := fun _ => true, isDir := fun _ => false, mkdirOk := fun _ => true }
      = RunResult.exited 1 [] []
    ∧ main_run "demo" ["a b"] (some "out")
        { pathExists := fun _ => false, isDir := fun _ => false, mkdirOk := fun _ => true }
      = RunResult.finished ["out"]
          [joinPath "out" ("demo" ++ ".transcription"), joinPath "out" ("demo" ++ ".fileids")]
          (generate_files "demo" ["a b"]).1 (generate_files "demo" ["a b"]).2 :=
  ⟨(C8_output_directory_handling "out" "demo" ["a b"]
      { pathExists := fun _ => true, isDir := fun _ => false, mkdirOk := fun _ => true }
      (by decide)).1 rfl rfl,
   (C8_output_directory_handling "out" "demo" ["a b"]
      { pathExists := fun _ => false, isDir := fun _ => false, mkdirOk := fun _ => true }
      (by decide)).2.1 rfl rfl⟩

end MakeTranscript
